import Mathlib

/-
Verification of the keep-core DKG coordination layer.

Shallow embedding of:
  * solidity/random-beacon/contracts/libraries/DKG.sol  (namespace DKG)
  * pkg/tbtc/node.go                                    (namespace Node)
  * pkg/beacon/chain/chain.go                           (namespace BeaconChain)

Modelling conventions: byte arrays (Solidity `bytes`, Go `[]byte`) are
`List Nat`; addresses are `Nat`; uint256 arithmetic is `Nat` (none of the
modelled computations can overflow 2^256: they only add and multiply block
numbers and small constants, and a revert on overflow would only add more
rejection cases to checks that we already model as rejections); reverts are
the `Except.error` branch; `keccak256` and `ecrecover` are opaque function
parameters.
-/

namespace DKG

/-- Size of a group in the threshold relay (`DKG.sol`, constant `groupSize`). -/
def groupSize : Nat := 64

/-- Minimum number of group members needed to interact according to the
protocol to produce a relay entry (`DKG.sol`, constant `groupThreshold`). -/
def groupThreshold : Nat := 33

/-- The minimum number of signatures required to support a DKG result
(`DKG.sol`, constant `signatureThreshold`).  Solidity `/` on `uint256`
truncates, so this is `groupThreshold + (groupSize - groupThreshold) / 2`
with floor division. -/
def signatureThreshold : Nat := groupThreshold + (groupSize - groupThreshold) / 2

/-- Time in blocks after which the DKG result is complete and ready to be
published (`DKG.sol`, constant `offchainDkgTime`): `5 * (1 + 5) + 2 * (1 + 10) + 20`. -/
def offchainDkgTime : Nat := 5 * (1 + 5) + 2 * (1 + 10) + 20

/-- The two compile-time constants of the library.  `DKG.sol` fixes them to
`groupSize = 64` and `offchainDkgTime = 72`; the state-machine functions
below are stated over explicit constants so that the specification's
timeout-boundary scenario (`keyGenWindow = 50`, `groupSize = 4`) is also
expressible, and the library's own functions instantiate `srcConsts`. -/
structure Consts where
  groupSize : Nat
  offchainDkgTime : Nat
  deriving DecidableEq

/-- The constants as `DKG.sol` fixes them. -/
def srcConsts : Consts := { groupSize := groupSize, offchainDkgTime := offchainDkgTime }

/-- DKG parameters (`DKG.sol`, struct `Parameters`). -/
structure Parameters where
  resultChallengePeriodLength : Nat
  resultSubmissionEligibilityDelay : Nat
  deriving DecidableEq

/-- DKG storage (`DKG.sol`, struct `Data`).  `submittedResultHash` (a
`bytes32`) is abstracted to `Nat`. -/
structure Data where
  parameters : Parameters
  startBlock : Nat
  submittedResultHash : Nat
  submittedResultBlock : Nat
  deriving DecidableEq

/-- States for phases of group creation (`DKG.sol`, enum `State`). -/
inductive State where
  | IDLE
  | KEY_GENERATION
  | AWAITING_RESULT
  | CHALLENGE
  deriving DecidableEq

/-- Position of a state in the forward order of the phase machine
`IDLE → KEY_GENERATION → AWAITING_RESULT → CHALLENGE`. -/
def stateRank : State → Nat
  | State.IDLE => 0
  | State.KEY_GENERATION => 1
  | State.AWAITING_RESULT => 2
  | State.CHALLENGE => 3

/-- A DKG result (`DKG.sol`, struct `Result`). -/
structure Result where
  submitterMemberIndex : Nat
  groupPubKey : List Nat
  misbehaved : List Nat
  signatures : List Nat
  signingMemberIndices : List Nat
  members : List Nat
  deriving DecidableEq

/-- The `currentState` function of `DKG.sol` over explicit constants: the
assignment cascade `IDLE`, then `KEY_GENERATION` when `startBlock > 0`, then
`AWAITING_RESULT` when additionally `block.number > startBlock + offchainDkgTime`,
then `CHALLENGE` when additionally `submittedResultBlock > 0`. -/
def currentStateP (c : Consts) (self : Data) (blockNumber : Nat) : State :=
  if self.startBlock > 0 then
    if blockNumber > self.startBlock + c.offchainDkgTime then
      if self.submittedResultBlock > 0 then State.CHALLENGE
      else State.AWAITING_RESULT
    else State.KEY_GENERATION
  else State.IDLE

/-- The library's `currentState` with the source constants. -/
def currentState (self : Data) (blockNumber : Nat) : State :=
  currentStateP srcConsts self blockNumber

/-- The `hasDkgTimedOut` function of `DKG.sol` over explicit constants:
true iff the state is `AWAITING_RESULT` and
`block.number > startBlock + offchainDkgTime + groupSize * resultSubmissionEligibilityDelay`. -/
def hasDkgTimedOutP (c : Consts) (self : Data) (blockNumber : Nat) : Bool :=
  decide (currentStateP c self blockNumber = State.AWAITING_RESULT) &&
  decide (self.startBlock + c.offchainDkgTime +
      c.groupSize * self.parameters.resultSubmissionEligibilityDelay < blockNumber)

/-- The library's `hasDkgTimedOut` with the source constants. -/
def hasDkgTimedOut (self : Data) (blockNumber : Nat) : Bool :=
  hasDkgTimedOutP srcConsts self blockNumber

/-- First block at which the member with the given index passes the
eligibility check of `verify`: `T_init + (submitterMemberIndex - 1) *
resultSubmissionEligibilityDelay` with `T_init = startBlock + offchainDkgTime`. -/
def firstEligibleBlock (c : Consts) (startBlock delay submitterMemberIndex : Nat) : Nat :=
  startBlock + c.offchainDkgTime + (submitterMemberIndex - 1) * delay

/-- The block-timing gates a result submission by the given member must pass,
over explicit constants: the `currentState = AWAITING_RESULT` and
`!hasDkgTimedOut` requires of `submitResult` and the submitter-eligibility
require of `verify`. -/
def submissionTimingOk (c : Consts) (self : Data)
    (submitterMemberIndex blockNumber : Nat) : Bool :=
  decide (currentStateP c self blockNumber = State.AWAITING_RESULT) &&
  !(hasDkgTimedOutP c self blockNumber) &&
  decide (firstEligibleBlock c self.startBlock
      self.parameters.resultSubmissionEligibilityDelay submitterMemberIndex ≤ blockNumber)

/-- The signature-checking loop of `verify` (`DKG.sol` lines 233-249).
Arguments after the fixed ones are the remaining `signingMemberIndices`, the
loop counter `i`, and the `usedMemberIndices` boolean array (allocated with
`groupSize` entries by the caller; reading it out of bounds is a Solidity
panic revert, modelled as a distinct error).  `signatures.slice(65 * i, 65)`
is modelled with `drop`/`take`: `BytesLib.slice` reverts when the requested
range exceeds the array, but `verify` only reaches the loop with
`signatures.length` a positive multiple of 65 equal to `65 * signaturesCount`
and `i < signaturesCount`, where the two agree. -/
def verifyLoop (recoverAddr : Nat → List Nat → Nat) (resultHash : Nat)
    (signatures members : List Nat) :
    List Nat → Nat → List Bool → Except String Unit
  | [], _, _ => Except.ok ()
  | memberIndex :: restIndices, i, usedMemberIndices =>
    if memberIndex = 0 then Except.error "Invalid index"
    else if memberIndex > members.length then Except.error "Index out of range"
    else if hu : memberIndex - 1 < usedMemberIndices.length then
      if usedMemberIndices[memberIndex - 1] then Except.error "Duplicate member index"
      else
        if members.getD (memberIndex - 1) 0 =
            recoverAddr resultHash ((signatures.drop (65 * i)).take 65) then
          verifyLoop recoverAddr resultHash signatures members restIndices (i + 1)
            (usedMemberIndices.set (memberIndex - 1) true)
        else Except.error "Invalid signature"
    else Except.error "Panic: array index out of bounds"

/-- The `verify` function of `DKG.sol`.  `recoverAddr` is the opaque
composition of `toEthSignedMessageHash` and `ECDSA.recover` applied to a
result hash and a 65-byte signature; `resultHashOf` is the opaque
`keccak256(abi.encodePacked(groupPubKey, misbehaved, startBlock))`.
`sender` is `msg.sender`.  `members[submitterMemberIndex - 1]` out of bounds
is a Solidity panic revert, modelled as a distinct error.  The local
`signaturesCount = signatures.length / 65` is inlined. -/
def verify (recoverAddr : Nat → List Nat → Nat)
    (resultHashOf : List Nat → List Nat → Nat → Nat)
    (self : Data) (sender blockNumber : Nat)
    (submitterMemberIndex : Nat) (groupPubKey misbehaved signatures : List Nat)
    (signingMemberIndices : List Nat) (members : List Nat) : Except String Unit :=
  if submitterMemberIndex = 0 then Except.error "Invalid submitter index"
  else if hs : submitterMemberIndex - 1 < members.length then
    if members[submitterMemberIndex - 1] ≠ sender then
      Except.error "Unexpected submitter index"
    else if blockNumber < firstEligibleBlock srcConsts self.startBlock
        self.parameters.resultSubmissionEligibilityDelay submitterMemberIndex then
      Except.error "Submitter not eligible"
    else if groupPubKey.length ≠ 128 then Except.error "Malformed group public key"
    else if misbehaved.length > groupSize - signatureThreshold then
      Except.error "Malformed misbehaved bytes"
    else if signatures.length < 65 then Except.error "Too short signatures array"
    else if signatures.length % 65 ≠ 0 then Except.error "Malformed signatures array"
    else if signatures.length / 65 ≠ signingMemberIndices.length then
      Except.error "Unexpected signatures count"
    else if signatures.length / 65 < signatureThreshold then
      Except.error "Too few signatures"
    else if signatures.length / 65 > groupSize then Except.error "Too many signatures"
    else
      verifyLoop recoverAddr (resultHashOf groupPubKey misbehaved self.startBlock)
        signatures members signingMemberIndices 0 (List.replicate groupSize false)
  else Except.error "Panic: array index out of bounds"

/-- The `submitResult` function of `DKG.sol`: requires `AWAITING_RESULT`,
requires the DKG has not timed out, runs `verify`, and on success stores the
result hash (the opaque `keccak256(abi.encode(result))`, `resultEncodeHash`)
and the current block number. -/
def submitResult (recoverAddr : Nat → List Nat → Nat)
    (resultHashOf : List Nat → List Nat → Nat → Nat)
    (resultEncodeHash : Result → Nat)
    (self : Data) (sender blockNumber : Nat) (result : Result) : Except String Data :=
  if currentState self blockNumber ≠ State.AWAITING_RESULT then
    Except.error "current state is not AWAITING_RESULT"
  else if hasDkgTimedOut self blockNumber then Except.error "dkg timeout already passed"
  else
    match verify recoverAddr resultHashOf self sender blockNumber
        result.submitterMemberIndex result.groupPubKey result.misbehaved
        result.signatures result.signingMemberIndices result.members with
    | Except.error e => Except.error e
    | Except.ok _ =>
      Except.ok { self with
        submittedResultHash := resultEncodeHash result
        submittedResultBlock := blockNumber }

/-- Storage after a `submitResult` transaction: the updated `Data` on
success, the unchanged `Data` when the call reverts. -/
def submitResultTx (recoverAddr : Nat → List Nat → Nat)
    (resultHashOf : List Nat → List Nat → Nat → Nat)
    (resultEncodeHash : Result → Nat)
    (self : Data) (sender blockNumber : Nat) (result : Result) : Data :=
  match submitResult recoverAddr resultHashOf resultEncodeHash
      self sender blockNumber result with
  | Except.ok updated => updated
  | Except.error _ => self

/-- The acceptance conditions for `verify` as the specification words them:
positive submitter index, the submitter's member address equals the sender,
the eligibility window has opened, a 128-byte group public key, at most
`groupSize - signatureThreshold` misbehaved entries, the signature count
equals the signing-index count and lies in `[signatureThreshold, groupSize]`,
the signing indices are unique, positive and at most `members.length`, and
every 65-byte signature recovers to the claimed member's address over the
result hash.  This definition follows the specification's words; the theorems
compare it with the `verify` translated from the source. -/
def verifyAcceptsSpec (recoverAddr : Nat → List Nat → Nat)
    (resultHashOf : List Nat → List Nat → Nat → Nat)
    (self : Data) (sender blockNumber : Nat)
    (submitterMemberIndex : Nat) (groupPubKey misbehaved signatures : List Nat)
    (signingMemberIndices : List Nat) (members : List Nat) : Prop :=
  0 < submitterMemberIndex ∧
  (submitterMemberIndex - 1 < members.length ∧
    members.getD (submitterMemberIndex - 1) 0 = sender) ∧
  firstEligibleBlock srcConsts self.startBlock
    self.parameters.resultSubmissionEligibilityDelay submitterMemberIndex ≤ blockNumber ∧
  groupPubKey.length = 128 ∧
  misbehaved.length ≤ groupSize - signatureThreshold ∧
  signatures.length = 65 * signingMemberIndices.length ∧
  signatureThreshold ≤ signingMemberIndices.length ∧
  signingMemberIndices.length ≤ groupSize ∧
  signingMemberIndices.Nodup ∧
  (∀ m ∈ signingMemberIndices, 0 < m ∧ m ≤ members.length) ∧
  (∀ k, k < signingMemberIndices.length →
    members.getD (signingMemberIndices.getD k 0 - 1) 0 =
      recoverAddr (resultHashOf groupPubKey misbehaved self.startBlock)
        ((signatures.drop (65 * k)).take 65))

/-- Members array used to refute the claimed acceptance conditions of
`verify`: 65 candidate members, all with address 7. -/
def cexMembers : List Nat := List.replicate 65 7

/-- Signing member indices used to refute the claimed acceptance conditions:
48 distinct indices, all positive and at most `cexMembers.length = 65`, with
index 65 among them. -/
def cexSigningIndices : List Nat := 65 :: (List.range 47).map (fun k => k + 1)

/-- Concatenated signatures for 48 signers, 65 zero bytes each. -/
def cexSignatures : List Nat := List.replicate (65 * 48) 0

/-- A 128-byte group public key of zero bytes. -/
def cexGroupPubKey : List Nat := List.replicate 128 0

/-- An address-recovery oracle returning address 7 for every signature. -/
def cexRecoverAddr : Nat → List Nat → Nat := fun _ _ => 7

/-- A result-hash oracle returning 0 for every input. -/
def cexResultHashOf : List Nat → List Nat → Nat → Nat := fun _ _ _ => 0

/-- DKG storage with both parameters 1, started at block 1, no submitted
result. -/
def cexData : Data := ⟨⟨1, 1⟩, 1, 0, 0⟩

/-- Signing member indices 1..48. -/
def okSigningIndices : List Nat := (List.range 48).map (fun k => k + 1)

/-- A result that `submitResult` accepts at block 74 when sent by address 7
against `cexData`: submitter index 1, zero-byte public key, no misbehaved
members, 48 zero signatures by members 1..48, a 64-member group whose
addresses are all 7. -/
def okResult : Result :=
  ⟨1, cexGroupPubKey, [], cexSignatures, okSigningIndices, List.replicate 64 7⟩

end DKG

namespace Node

/-- Outcome of one `joinDKGIfEligible` call (`pkg/tbtc/node.go`): whether the
broadcast channel for the session was opened, and the `memberIndex` values of
the member goroutines that were started. -/
structure JoinOutcome where
  broadcastChannelOpened : Bool
  startedMemberIndexes : List Nat
  deriving DecidableEq

/-- Go `uint8` conversion: truncation modulo 256. -/
def uint8 (n : Nat) : Nat := n % 256

/-- The index-collection loop of `joinDKGIfEligible`: positions of the
node's operator address in `selectedSigningGroupOperators`, each cast with
`uint8(index)`. -/
def eligibleOperatorIndexes (selectedSigningGroupOperators : List Nat)
    (operatorAddress : Nat) : List Nat :=
  ((List.range selectedSigningGroupOperators.length).filter
    (fun index => selectedSigningGroupOperators.getD index 0 = operatorAddress)).map uint8

/-- The control flow of `joinDKGIfEligible` (`pkg/tbtc/node.go`) as far as it
decides which member goroutines start.  `selectGroup` is `none` when
`chain.SelectGroup` fails, `operatorAddress` is `none` when obtaining the
operator key pair or address fails, `broadcastChannelOk` is whether
`BroadcastChannelFor` succeeds.  Each early `return` yields no started
members; a `SetFilter` failure is only logged and does not return.  Each
started member uses `memberIndex := index + 1` computed in `uint8`
arithmetic.  The broadcast channel is opened only after the group-size and
pre-parameters checks pass. -/
def joinDKGIfEligible (selectGroup : Option (List Nat)) (groupSize : Nat)
    (operatorAddress : Option Nat) (preParamsCount : Nat)
    (broadcastChannelOk : Bool) : JoinOutcome :=
  match selectGroup with
  | none => ⟨false, []⟩
  | some selectedSigningGroupOperators =>
    if selectedSigningGroupOperators.length > groupSize then ⟨false, []⟩
    else
      match operatorAddress with
      | none => ⟨false, []⟩
      | some addr =>
        let indexes := eligibleOperatorIndexes selectedSigningGroupOperators addr
        if 0 < indexes.length then
          if indexes.length > preParamsCount then ⟨false, []⟩
          else if broadcastChannelOk then
            ⟨true, indexes.map (fun index => uint8 (index + 1))⟩
          else ⟨false, []⟩
        else ⟨false, []⟩

/-- Selected-operator list used to refute the unrestricted index claim: 256
operators, the node's operator (address 5) at 0-based position 255. -/
def cexSelectedOperators : List Nat := List.replicate 255 0 ++ [5]

/-- Which of the two events the `select` in `waitForBlockHeight` observes
first: the block-height waiter firing, or the cancellation context being
done. -/
inductive WaitOutcome where
  | heightReached
  | contextDone
  deriving DecidableEq

/-- The `waitForBlockHeight` method of `pkg/tbtc/node.go`: returns the error
of `chain.BlockCounter()` when it fails, else the error of
`blockCounter.BlockHeightWaiter(blockHeight)` when it fails, else waits on
the waiter channel or the context and returns `nil` (`none`) either way.
The opaque block counter is a `Nat`; the waiter construction is an opaque
function parameter; the `select` is modelled by the `outcome` parameter. -/
def waitForBlockHeight (blockCounter : Except String Nat)
    (blockHeightWaiter : Nat → Nat → Except String Unit)
    (blockHeight : Nat) (outcome : WaitOutcome) : Option String :=
  match blockCounter with
  | Except.error err => some err
  | Except.ok counter =>
    match blockHeightWaiter counter blockHeight with
    | Except.error err => some err
    | Except.ok _ =>
      match outcome with
      | WaitOutcome.heightReached => none
      | WaitOutcome.contextDone => none

end Node

namespace BeaconChain

/-- A DKG result (`pkg/beacon/chain/chain.go`, struct `DKGResult`): the group
public key and the misbehaved member indices, both byte slices. -/
structure DKGResult where
  groupPublicKey : List Nat
  misbehaved : List Nat
  deriving DecidableEq

/-- The `Equals` method on `*DKGResult` pointers, `none` standing for `nil`:
when either pointer is `nil` the result is the pointer comparison `r == r2`;
otherwise `bytes.Equal` on `GroupPublicKey` then on `Misbehaved` (Go
`bytes.Equal` on slices is list equality; it treats `nil` and empty slices
as equal, and both are `[]` here). -/
def DKGResult.Equals : Option DKGResult → Option DKGResult → Bool
  | none, none => true
  | none, some _ => false
  | some _, none => false
  | some a, some b =>
    if a.groupPublicKey ≠ b.groupPublicKey then false
    else if a.misbehaved ≠ b.misbehaved then false
    else true

end BeaconChain

namespace DKG

/-- Reading a freshly allocated boolean array yields `false` at every
position (also out of bounds, where `getD` yields the default). -/
theorem getD_replicate_false : ∀ (n i : Nat), (List.replicate n false).getD i false = false
  | 0, _ => rfl
  | _ + 1, 0 => rfl
  | n + 1, i + 1 => getD_replicate_false n i

/-- Reading the position just written in a boolean array. -/
theorem getD_set_eq (l : List Bool) (i : Nat) (h : i < l.length) :
    (l.set i true).getD i false = true := by
  rw [List.getD_eq_getElem?_getD, List.getElem?_set, if_pos rfl, if_pos h]
  rfl

/-- Reading any other position of a just-written boolean array. -/
theorem getD_set_ne (l : List Bool) (i j : Nat) (h : i ≠ j) :
    (l.set i true).getD j false = l.getD j false := by
  rw [List.getD_eq_getElem?_getD, List.getElem?_set, if_neg h, ← List.getD_eq_getElem?_getD]

/-- C1: the signature threshold is computed with Solidity floor division:
`signatureThreshold = groupThreshold + ⌊(groupSize - groupThreshold) / 2⌋`,
which with `groupSize = 64` and `groupThreshold = 33` is `33 + 15 = 48`. -/
theorem signatureThreshold_floor_value :
    signatureThreshold = groupThreshold + (groupSize - groupThreshold) / 2 ∧
    groupSize = 64 ∧ groupThreshold = 33 ∧ signatureThreshold = 48 := by
  decide

/-- C1 counterexample: the claimed ceiling identity
`signatureThreshold = groupThreshold + ⌈(groupSize - groupThreshold) / 2⌉`
(in Nat, `⌈n / 2⌉ = (n + 1) / 2`) fails, and `signatureThreshold ≠ 49`. -/
theorem signatureThreshold_ceil_refuted :
    signatureThreshold ≠ groupThreshold + (groupSize - groupThreshold + 1) / 2 ∧
    signatureThreshold ≠ 49 := by
  decide

/-- C3: `hasDkgTimedOut` is true exactly when the computed state is
`AWAITING_RESULT` and the block number strictly exceeds
`startBlock + offchainDkgTime + groupSize * resultSubmissionEligibilityDelay`. -/
theorem hasDkgTimedOut_iff (self : Data) (blockNumber : Nat) :
    hasDkgTimedOut self blockNumber = true ↔
      (currentState self blockNumber = State.AWAITING_RESULT ∧
        self.startBlock + offchainDkgTime +
          groupSize * self.parameters.resultSubmissionEligibilityDelay < blockNumber) := by
  simp [hasDkgTimedOut, hasDkgTimedOutP, currentState, srcConsts]

/-- C5: the computed phase is monotone in the block number: for a fixed
`Data` record (fixed `startBlock` and `submittedResultBlock`), increasing
the block number never moves the phase backwards in the order
`IDLE → KEY_GENERATION → AWAITING_RESULT → CHALLENGE`. -/
theorem currentState_monotone (self : Data) (b1 b2 : Nat) (h : b1 ≤ b2) :
    stateRank (currentState self b1) ≤ stateRank (currentState self b2) := by
  unfold currentState currentStateP
  split_ifs <;> simp [stateRank] <;> omega

/-- Witness for C5 at a concrete state and pair of blocks. -/
theorem currentState_monotone_witness :
    stateRank (currentState ⟨⟨1, 1⟩, 1, 0, 0⟩ 10) ≤
      stateRank (currentState ⟨⟨1, 1⟩, 1, 0, 0⟩ 100) :=
  currentState_monotone ⟨⟨1, 1⟩, 1, 0, 0⟩ 10 100 (by decide)

/-- Characterization of the signature-checking loop: starting from any
`usedMemberIndices` array and loop counter, the loop succeeds exactly when
the remaining indices are distinct, each is positive, at most
`members.length`, within the used-array bounds and not yet marked used, and
each positional signature recovers to the claimed member's address. -/
theorem verifyLoop_ok_iff (recoverAddr : Nat → List Nat → Nat) (resultHash : Nat)
    (signatures members : List Nat) (smi : List Nat) :
    ∀ (i0 : Nat) (used : List Bool),
    verifyLoop recoverAddr resultHash signatures members smi i0 used = Except.ok () ↔
      (smi.Nodup ∧
        (∀ m ∈ smi, 0 < m ∧ m ≤ members.length ∧ m - 1 < used.length ∧
          used.getD (m - 1) false = false) ∧
        (∀ k, k < smi.length →
          members.getD (smi.getD k 0 - 1) 0 =
            recoverAddr resultHash ((signatures.drop (65 * (i0 + k))).take 65))) := by
  induction smi with
  | nil => intro i0 used; simp [verifyLoop]
  | cons m rest ih =>
    intro i0 used
    rw [verifyLoop]
    by_cases h0 : m = 0
    · rw [if_pos h0]
      refine iff_of_false (by simp) ?_
      rintro ⟨-, hall, -⟩
      rcases hall m (List.mem_cons_self m rest) with ⟨hm0, -, -, -⟩
      omega
    · rw [if_neg h0]
      by_cases hlen : m > members.length
      · rw [if_pos hlen]
        refine iff_of_false (by simp) ?_
        rintro ⟨-, hall, -⟩
        rcases hall m (List.mem_cons_self m rest) with ⟨-, hle, -, -⟩
        omega
      · rw [if_neg hlen]
        by_cases hu : m - 1 < used.length
        · rw [dif_pos hu]
          by_cases hdup : used[m - 1] = true
          · rw [if_pos hdup]
            refine iff_of_false (by simp) ?_
            rintro ⟨-, hall, -⟩
            rcases hall m (List.mem_cons_self m rest) with ⟨-, -, -, hfree⟩
            rw [List.getD_eq_getElem used false hu, hdup] at hfree
            exact Bool.true_eq_false ▸ hfree
          · rw [if_neg hdup]
            by_cases hrec : members.getD (m - 1) 0 =
                recoverAddr resultHash ((signatures.drop (65 * i0)).take 65)
            · rw [if_pos hrec, ih (i0 + 1) (used.set (m - 1) true)]
              constructor
              · rintro ⟨hnd, hA, hB⟩
                have hnotin : m ∉ rest := by
                  intro hmem
                  rcases hA m hmem with ⟨-, -, -, hfree⟩
                  rw [getD_set_eq used (m - 1) hu] at hfree
                  exact Bool.true_eq_false ▸ hfree
                refine ⟨List.nodup_cons.mpr ⟨hnotin, hnd⟩, ?_, ?_⟩
                · intro n hn
                  rcases List.mem_cons.mp hn with rfl | hn
                  · refine ⟨by omega, by omega, hu, ?_⟩
                    rw [List.getD_eq_getElem used false hu]
                    simpa using hdup
                  · rcases hA n hn with ⟨hn0, hnle, hnlt, hnfree⟩
                    rw [List.length_set] at hnlt
                    have hne : m - 1 ≠ n - 1 := by
                      intro he
                      have : n = m := by
                        have hm0p : 0 < m := by omega
                        omega
                      exact hnotin (this ▸ hn)
                    rw [getD_set_ne used (m - 1) (n - 1) hne] at hnfree
                    exact ⟨hn0, hnle, hnlt, hnfree⟩
                · intro k hk
                  match k with
                  | 0 => simpa using hrec
                  | k + 1 =>
                    have h65 : 65 * (i0 + (k + 1)) = 65 * (i0 + 1 + k) := by omega
                    have := hB k (by simpa using hk)
                    rw [List.getD_cons_succ, h65]
                    exact this
              · rintro ⟨hnd, hall, hpos⟩
                rcases List.nodup_cons.mp hnd with ⟨hnotin, hndrest⟩
                refine ⟨hndrest, ?_, ?_⟩
                · intro n hn
                  rcases hall n (List.mem_cons_of_mem m hn) with ⟨hn0, hnle, hnlt, hnfree⟩
                  have hne : m - 1 ≠ n - 1 := by
                    intro he
                    have hm0p : 0 < m := by omega
                    have : n = m := by omega
                    exact hnotin (this ▸ hn)
                  refine ⟨hn0, hnle, by rw [List.length_set]; exact hnlt, ?_⟩
                  rw [getD_set_ne used (m - 1) (n - 1) hne]
                  exact hnfree
                · intro k hk
                  have h65 : 65 * (i0 + (k + 1)) = 65 * (i0 + 1 + k) := by omega
                  have := hpos (k + 1) (by simpa using Nat.succ_lt_succ hk)
                  rw [List.getD_cons_succ, h65] at this
                  exact this
            · rw [if_neg hrec]
              refine iff_of_false (by simp) ?_
              rintro ⟨-, -, hpos⟩
              have := hpos 0 (by simp)
              simp only [List.getD_cons_zero, Nat.add_zero] at this
              exact hrec this
        · rw [dif_neg hu]
          refine iff_of_false (by simp) ?_
          rintro ⟨-, hall, -⟩
          rcases hall m (List.mem_cons_self m rest) with ⟨-, -, hlt, -⟩
          exact hu hlt

/-- Characterization of `verify`: it succeeds exactly when the
specification's acceptance conditions hold and, additionally, every signing
member index is at most `groupSize` (the bound of the `usedMemberIndices`
scratch array). -/
theorem verify_ok_iff (recoverAddr : Nat → List Nat → Nat)
    (resultHashOf : List Nat → List Nat → Nat → Nat)
    (self : Data) (sender blockNumber submitterMemberIndex : Nat)
    (groupPubKey misbehaved signatures signingMemberIndices members : List Nat) :
    verify recoverAddr resultHashOf self sender blockNumber submitterMemberIndex
        groupPubKey misbehaved signatures signingMemberIndices members = Except.ok () ↔
      (verifyAcceptsSpec recoverAddr resultHashOf self sender blockNumber
          submitterMemberIndex groupPubKey misbehaved signatures
          signingMemberIndices members ∧
        ∀ m ∈ signingMemberIndices, m ≤ groupSize) := by
  have hst : signatureThreshold = 48 := rfl
  have hgs : groupSize = 64 := rfl
  rw [verify]
  unfold verifyAcceptsSpec
  by_cases c1 : submitterMemberIndex = 0
  · rw [if_pos c1]
    refine iff_of_false (by simp) ?_
    rintro ⟨⟨h1, -⟩, -⟩
    omega
  · rw [if_neg c1]
    by_cases c2 : submitterMemberIndex - 1 < members.length
    · rw [dif_pos c2]
      by_cases c3 : members[submitterMemberIndex - 1] = sender
      · rw [if_neg (by simpa using c3)]
        by_cases c4 : blockNumber < firstEligibleBlock srcConsts self.startBlock
            self.parameters.resultSubmissionEligibilityDelay submitterMemberIndex
        · rw [if_pos c4]
          refine iff_of_false (by simp) ?_
          rintro ⟨⟨-, -, h3, -⟩, -⟩
          omega
        · rw [if_neg c4]
          by_cases c5 : groupPubKey.length = 128
          · rw [if_neg (by simpa using c5)]
            by_cases c6 : misbehaved.length > groupSize - signatureThreshold
            · rw [if_pos c6]
              refine iff_of_false (by simp) ?_
              rintro ⟨⟨-, -, -, -, h5, -⟩, -⟩
              omega
            · rw [if_neg c6]
              by_cases c7 : signatures.length < 65
              · rw [if_pos c7]
                refine iff_of_false (by simp) ?_
                rintro ⟨⟨-, -, -, -, -, h6, h7, -⟩, -⟩
                omega
              · rw [if_neg c7]
                by_cases c8 : signatures.length % 65 = 0
                · rw [if_neg (by simpa using c8)]
                  by_cases c9 : signatures.length / 65 = signingMemberIndices.length
                  · rw [if_neg (by simpa using c9)]
                    by_cases c10 : signatures.length / 65 < signatureThreshold
                    · rw [if_pos c10]
                      refine iff_of_false (by simp) ?_
                      rintro ⟨⟨-, -, -, -, -, h6, h7, -⟩, -⟩
                      omega
                    · rw [if_neg c10]
                      by_cases c11 : signatures.length / 65 > groupSize
                      · rw [if_pos c11]
                        refine iff_of_false (by simp) ?_
                        rintro ⟨⟨-, -, -, -, -, h6, -, h8, -⟩, -⟩
                        omega
                      · rw [if_neg c11]
                        rw [verifyLoop_ok_iff]
                        have hlen : signatures.length = 65 * signingMemberIndices.length := by
                          omega
                        constructor
                        · rintro ⟨hnd, hall, hpos⟩
                          refine ⟨⟨by omega, ⟨c2, ?_⟩, by omega, c5, by omega,
                            hlen, by omega, by omega, hnd, ?_, ?_⟩, ?_⟩
                          · rw [List.getD_eq_getElem members 0 c2]
                            exact c3
                          · intro m hm
                            rcases hall m hm with ⟨hm0, hmle, -, -⟩
                            exact ⟨hm0, hmle⟩
                          · intro k hk
                            have := hpos k hk
                            simpa using this
                          · intro m hm
                            rcases hall m hm with ⟨hm0, -, hmlt, -⟩
                            rw [List.length_replicate] at hmlt
                            omega
                        · rintro ⟨⟨-, -, -, -, -, -, -, -, hnd, hmem, hpos⟩, hbound⟩
                          refine ⟨hnd, ?_, ?_⟩
                          · intro m hm
                            rcases hmem m hm with ⟨hm0, hmle⟩
                            refine ⟨hm0, hmle, ?_, getD_replicate_false groupSize (m - 1)⟩
                            rw [List.length_replicate]
                            have := hbound m hm
                            omega
                          · intro k hk
                            have := hpos k hk
                            simpa using this
                  · rw [if_pos (by simpa using c9)]
                    refine iff_of_false (by simp) ?_
                    rintro ⟨⟨-, -, -, -, -, h6, -⟩, -⟩
                    omega
                · rw [if_pos (by simpa using c8)]
                  refine iff_of_false (by simp) ?_
                  rintro ⟨⟨-, -, -, -, -, h6, -⟩, -⟩
                  omega
          · rw [if_pos (by simpa using c5)]
            refine iff_of_false (by simp) ?_
            rintro ⟨⟨-, -, -, h4, -⟩, -⟩
            omega
      · rw [if_pos (by simpa using c3)]
        refine iff_of_false (by simp) ?_
        rintro ⟨⟨-, ⟨h2a, h2b⟩, -⟩, -⟩
        rw [List.getD_eq_getElem members 0 h2a] at h2b
        exact c3 h2b
    · rw [dif_neg c2]
      refine iff_of_false (by simp) ?_
      rintro ⟨⟨-, ⟨h2a, -⟩, -⟩, -⟩
      exact c2 h2a

/-- C7: eligibility fairness.  The eligibility threshold
`startBlock + offchainDkgTime + (i - 1) * resultSubmissionEligibilityDelay`
is monotone in the member index, so member `i` is never eligible before
member `i - 1`, and `verify` never accepts a submitter before its own
threshold. -/
theorem eligibility_fairness :
    (∀ startBlock delay i j, i ≤ j →
      firstEligibleBlock srcConsts startBlock delay i ≤
        firstEligibleBlock srcConsts startBlock delay j) ∧
    (∀ recoverAddr resultHashOf self sender blockNumber submitterMemberIndex
        groupPubKey misbehaved signatures signingMemberIndices members,
      verify recoverAddr resultHashOf self sender blockNumber submitterMemberIndex
          groupPubKey misbehaved signatures signingMemberIndices members = Except.ok () →
      firstEligibleBlock srcConsts self.startBlock
          self.parameters.resultSubmissionEligibilityDelay submitterMemberIndex ≤
        blockNumber) := by
  constructor
  · intro startBlock delay i j hij
    unfold firstEligibleBlock
    have : (i - 1) * delay ≤ (j - 1) * delay :=
      Nat.mul_le_mul_right delay (Nat.sub_le_sub_right hij 1)
    omega
  · intro recoverAddr resultHashOf self sender blockNumber submitterMemberIndex
      groupPubKey misbehaved signatures signingMemberIndices members h
    exact ((verify_ok_iff recoverAddr resultHashOf self sender blockNumber
      submitterMemberIndex groupPubKey misbehaved signatures signingMemberIndices
      members).mp h).1.2.2.1

/-- C4 (amended): `verify` succeeds if and only if all the acceptance
conditions listed by the specification hold and, in addition, every signing
member index is at most `groupSize`: the `usedMemberIndices` scratch array
used for duplicate detection has only `groupSize` slots, so an index that is
within `members.length` but above `groupSize` makes the library revert with
an array-bounds panic even though all the listed conditions hold. -/
theorem verify_accepts_iff_amended (recoverAddr : Nat → List Nat → Nat)
    (resultHashOf : List Nat → List Nat → Nat → Nat)
    (self : Data) (sender blockNumber submitterMemberIndex : Nat)
    (groupPubKey misbehaved signatures signingMemberIndices members : List Nat) :
    verify recoverAddr resultHashOf self sender blockNumber submitterMemberIndex
        groupPubKey misbehaved signatures signingMemberIndices members = Except.ok () ↔
      (verifyAcceptsSpec recoverAddr resultHashOf self sender blockNumber
          submitterMemberIndex groupPubKey misbehaved signatures
          signingMemberIndices members ∧
        ∀ m ∈ signingMemberIndices, m ≤ groupSize) :=
  verify_ok_iff recoverAddr resultHashOf self sender blockNumber
    submitterMemberIndex groupPubKey misbehaved signatures signingMemberIndices members

set_option maxRecDepth 8192

/-- C4 counterexample: with 65 candidate members (all address 7) and signing
indices `[65, 1, …, 47]` — 48 distinct, positive indices each at most
`members.length` — every acceptance condition listed by the specification
holds, yet `verify` does not succeed: index 65 overruns the 64-slot
`usedMemberIndices` array and the library reverts with an array-bounds
panic.  The claimed equivalence therefore fails at this input. -/
theorem verify_spec_iff_refuted :
    verifyAcceptsSpec cexRecoverAddr cexResultHashOf cexData 7 100 1
        cexGroupPubKey [] cexSignatures cexSigningIndices cexMembers ∧
      verify cexRecoverAddr cexResultHashOf cexData 7 100 1
        cexGroupPubKey [] cexSignatures cexSigningIndices cexMembers ≠
        Except.ok () := by
  constructor
  · unfold verifyAcceptsSpec
    refine ⟨by decide, by decide, by decide, by decide, by decide, ?_,
      by decide, by decide, by decide, by decide, ?_⟩
    · show cexSignatures.length = 65 * cexSigningIndices.length
      unfold cexSignatures cexSigningIndices
      rw [List.length_replicate]
      simp only [List.length_cons, List.length_map, List.length_range]
    intro k hk
    rw [show cexRecoverAddr
      (cexResultHashOf cexGroupPubKey [] cexData.startBlock)
      ((cexSignatures.drop (65 * k)).take 65) = 7 from rfl]
    have hk48 : k < 48 := by simpa [cexSigningIndices] using hk
    interval_cases k <;> decide
  · intro hok
    rcases (verify_ok_iff cexRecoverAddr cexResultHashOf cexData 7 100 1
      cexGroupPubKey [] cexSignatures cexSigningIndices cexMembers).mp hok
      with ⟨-, hbound⟩
    have h65 := hbound 65 (by simp [cexSigningIndices])
    simp [groupSize] at h65

/-- C6: `submitResult` succeeds only when the computed phase is
`AWAITING_RESULT`, the DKG has not timed out and `verify` accepts the
result; on success the stored data keeps its parameters and start block,
records the result hash, sets `submittedResultBlock` to the current block,
and the phase recomputed at that same block is `CHALLENGE`; on any failure
the call reverts and the stored data is unchanged. -/
theorem submitResult_ok_spec (recoverAddr : Nat → List Nat → Nat)
    (resultHashOf : List Nat → List Nat → Nat → Nat)
    (resultEncodeHash : Result → Nat)
    (self : Data) (sender blockNumber : Nat) (result : Result) (updated : Data)
    (h : submitResult recoverAddr resultHashOf resultEncodeHash self sender
        blockNumber result = Except.ok updated) :
    currentState self blockNumber = State.AWAITING_RESULT ∧
    hasDkgTimedOut self blockNumber = false ∧
    verify recoverAddr resultHashOf self sender blockNumber
      result.submitterMemberIndex result.groupPubKey result.misbehaved
      result.signatures result.signingMemberIndices result.members = Except.ok () ∧
    updated = { self with submittedResultHash := resultEncodeHash result,
                          submittedResultBlock := blockNumber } ∧
    currentState updated blockNumber = State.CHALLENGE ∧
    (∀ self2 result2 e, submitResult recoverAddr resultHashOf resultEncodeHash
        self2 sender blockNumber result2 = Except.error e →
      submitResultTx recoverAddr resultHashOf resultEncodeHash self2 sender
        blockNumber result2 = self2) := by
  rw [submitResult] at h
  by_cases hstate : currentState self blockNumber = State.AWAITING_RESULT
  · rw [if_neg (by simpa using hstate)] at h
    by_cases htime : hasDkgTimedOut self blockNumber = true
    · rw [if_pos htime] at h
      exact absurd h (by simp)
    · rw [if_neg htime] at h
      rcases hv : verify recoverAddr resultHashOf self sender blockNumber
          result.submitterMemberIndex result.groupPubKey result.misbehaved
          result.signatures result.signingMemberIndices result.members
        with e | u
      · rw [hv] at h
        exact absurd h (by simp)
      · cases u
        rw [hv] at h
        have hupd : updated = { self with
            submittedResultHash := resultEncodeHash result,
            submittedResultBlock := blockNumber } := by
          cases h
          rfl
        have hA : self.startBlock > 0 ∧
            blockNumber > self.startBlock + srcConsts.offchainDkgTime := by
          unfold currentState currentStateP at hstate
          split_ifs at hstate with h1 h2 h3
          exact ⟨h1, h2⟩
        refine ⟨hstate, by simpa using htime, rfl, hupd, ?_, ?_⟩
        · have hu1 : updated.startBlock = self.startBlock := by rw [hupd]
          have hu2 : updated.submittedResultBlock = blockNumber := by rw [hupd]
          unfold currentState currentStateP
          rw [hu1, hu2, if_pos hA.1, if_pos hA.2, if_pos (by omega)]
        · intro self2 result2 e he
          unfold submitResultTx
          rw [he]
  · rw [if_pos (by simpa using hstate)] at h
    exact absurd h (by simp)

/-- Concrete successful submission: against `cexData` at block 74, sender 7
submits `okResult` and the call returns the updated storage with the result
block recorded. -/
theorem submitResult_cex_ok :
    submitResult cexRecoverAddr cexResultHashOf (fun _ => 0) cexData 7 74 okResult =
      Except.ok ⟨⟨1, 1⟩, 1, 0, 74⟩ := by
  have hverify : verify cexRecoverAddr cexResultHashOf cexData 7 74 1
      cexGroupPubKey [] cexSignatures okSigningIndices (List.replicate 64 7) =
      Except.ok () := by
    rw [verify_ok_iff]
    refine ⟨⟨by decide, by decide, by decide, by decide, by decide, ?_,
      by decide, by decide, by decide, by decide, ?_⟩, by decide⟩
    · show cexSignatures.length = 65 * okSigningIndices.length
      unfold cexSignatures okSigningIndices
      rw [List.length_replicate]
      simp only [List.length_map, List.length_range]
    · intro k hk
      rw [show cexRecoverAddr
        (cexResultHashOf cexGroupPubKey [] cexData.startBlock)
        ((cexSignatures.drop (65 * k)).take 65) = 7 from rfl]
      have hk48 : k < 48 := by simpa [okSigningIndices] using hk
      interval_cases k <;> decide
  rw [submitResult]
  rw [if_neg (by decide), if_neg (by decide)]
  rw [show okResult.submitterMemberIndex = 1 from rfl,
    show okResult.groupPubKey = cexGroupPubKey from rfl,
    show okResult.misbehaved = [] from rfl,
    show okResult.signatures = cexSignatures from rfl,
    show okResult.signingMemberIndices = okSigningIndices from rfl,
    show okResult.members = List.replicate 64 7 from rfl]
  rw [hverify]
  rfl

/-- Witness for C6: the concrete successful submission of `okResult` leaves
storage whose recomputed phase at the submission block is `CHALLENGE`. -/
theorem submitResult_ok_spec_witness :
    currentState ⟨⟨1, 1⟩, 1, 0, 74⟩ 74 = State.CHALLENGE :=
  (submitResult_ok_spec cexRecoverAddr cexResultHashOf (fun _ => 0) cexData 7 74
    okResult ⟨⟨1, 1⟩, 1, 0, 74⟩ submitResult_cex_ok).2.2.2.2.1

/-- C2 (amended): with constants `groupSize = 4`, `offchainDkgTime = 50`
(the scenario's key-generation window) and eligibility delay 10, the DKG
times out exactly after block `startBlock + 50 + 4 × 10`, and member 4's
submission passes the session-timeout and per-member-eligibility gates
exactly on blocks `startBlock + 50 + 3 × 10` through `startBlock + 50 + 4 × 10`;
in particular `startBlock + 50 + 4 × 10` (not `+ 3 × 10`) is the last
accepted block, and `startBlock + 50 + 4 × 10 + 1` is the first rejected one. -/
theorem timeout_boundary_amended (s b : Nat) (hs : 0 < s) :
    (hasDkgTimedOutP ⟨4, 50⟩ ⟨⟨0, 10⟩, s, 0, 0⟩ b = true ↔ s + 50 + 4 * 10 < b) ∧
    (submissionTimingOk ⟨4, 50⟩ ⟨⟨0, 10⟩, s, 0, 0⟩ 4 b = true ↔
      s + 50 + 3 * 10 ≤ b ∧ b ≤ s + 50 + 4 * 10) := by
  unfold submissionTimingOk hasDkgTimedOutP currentStateP firstEligibleBlock
  simp only [Bool.and_eq_true, Bool.not_eq_true', Bool.and_eq_false_iff,
    decide_eq_true_eq, decide_eq_false_iff_not]
  split_ifs <;> simp_all <;> omega

/-- C2 counterexample: in the scenario `keyGenWindow = 50`, `groupSize = 4`,
`delay = 10`, `startBlock = 100`, a submission by member 4 at block
`startBlock + 50 + 3 × 10 + 1` is not past the session timeout and passes
all timing gates, contradicting the claim that it is rejected there. -/
theorem timeout_boundary_refuted :
    hasDkgTimedOutP ⟨4, 50⟩ ⟨⟨0, 10⟩, 100, 0, 0⟩ (100 + 50 + 3 * 10 + 1) = false ∧
    submissionTimingOk ⟨4, 50⟩ ⟨⟨0, 10⟩, 100, 0, 0⟩ 4 (100 + 50 + 3 * 10 + 1) = true := by
  decide

/-- Witness for C2 (amended) at `startBlock = 100`, block 185. -/
theorem timeout_boundary_witness :
    submissionTimingOk ⟨4, 50⟩ ⟨⟨0, 10⟩, 100, 0, 0⟩ 4 185 = true :=
  ((timeout_boundary_amended 100 185 (by decide)).2).mpr (by decide)

end DKG

namespace Node

/-- C8 (amended): when `chainConfig.GroupSize` is at most 255 — so 0-based
positions fit in Go `uint8` — every member goroutine started by
`joinDKGIfEligible` uses a member index that is the operator's 0-based
position in the selected list plus one, hence lies in `[1, GroupSize]`; and
whenever the selected list is longer than `GroupSize`, the call returns
early: no broadcast channel is opened and no member is started. -/
theorem joinDKGIfEligible_member_indexes (selected : List Nat)
    (groupSize addr preParamsCount : Nat) (channelOk : Bool) :
    (groupSize ≤ 255 →
      ∀ m ∈ (joinDKGIfEligible (some selected) groupSize (some addr)
          preParamsCount channelOk).startedMemberIndexes,
        ∃ p, p < selected.length ∧ selected.getD p 0 = addr ∧
          m = p + 1 ∧ 1 ≤ m ∧ m ≤ groupSize) ∧
    (selected.length > groupSize →
      joinDKGIfEligible (some selected) groupSize (some addr) preParamsCount
        channelOk = ⟨false, []⟩) := by
  constructor
  · intro hgs m hm
    simp only [joinDKGIfEligible] at hm
    by_cases hlen : selected.length > groupSize
    · rw [if_pos hlen] at hm
      simp at hm
    · rw [if_neg hlen] at hm
      split_ifs at hm with hpos hpp hch <;> try simp at hm
      rcases hm with ⟨i, hi, rfl⟩
      unfold eligibleOperatorIndexes at hi
      rcases List.mem_map.mp hi with ⟨p, hp, rfl⟩
      have hp2 := List.mem_filter.mp hp
      have hpr : p < selected.length := List.mem_range.mp hp2.1
      have hpe : selected.getD p 0 = addr := by simpa using hp2.2
      have hplt : p < 256 := by omega
      have hm1 : uint8 (uint8 p + 1) = p + 1 := by
        unfold uint8
        rw [Nat.mod_eq_of_lt hplt, Nat.mod_eq_of_lt (by omega)]
      refine ⟨p, hpr, hpe, hm1, ?_, ?_⟩
      · rw [hm1]; omega
      · rw [hm1]; omega
  · intro hlen
    simp only [joinDKGIfEligible]
    rw [if_pos hlen]

/-- C8 counterexample: with `GroupSize = 256` and the node's operator at
0-based position 255 of a 256-entry selected list, the started member index
is `uint8(255) + 1 = 0` — outside `[1, GroupSize]` and not equal to the
position plus one.  The unrestricted claim fails at this input. -/
theorem joinDKGIfEligible_uint8_wrap :
    (joinDKGIfEligible (some cexSelectedOperators) 256 (some 5) 1
        true).startedMemberIndexes = [0] ∧
    ¬ (∀ m ∈ (joinDKGIfEligible (some cexSelectedOperators) 256 (some 5) 1
        true).startedMemberIndexes, 1 ≤ m ∧ m ≤ 256) := by
  have hlist : (joinDKGIfEligible (some cexSelectedOperators) 256 (some 5) 1
      true).startedMemberIndexes = [0] := by
    set_option maxRecDepth 30000 in decide
  refine ⟨hlist, ?_⟩
  intro hall
  have h0 := hall 0 (by rw [hlist]; exact List.mem_singleton_self 0)
  omega

/-- C9: `waitForBlockHeight` returns no error whenever the block counter and
the waiter construction succeed — whichever of the target height or the
context cancellation happens first — its result does not depend on which of
the two events fired, and it returns an error exactly when obtaining the
block counter or constructing the waiter fails, propagating that error. -/
theorem waitForBlockHeight_error_spec :
    ∀ (blockCounter : Except String Nat)
      (blockHeightWaiter : Nat → Nat → Except String Unit)
      (blockHeight : Nat) (outcome : WaitOutcome),
      (∀ counter, blockCounter = Except.ok counter →
        (blockHeightWaiter counter blockHeight).isOk = true →
        waitForBlockHeight blockCounter blockHeightWaiter blockHeight outcome = none) ∧
      (∀ outcome2,
        waitForBlockHeight blockCounter blockHeightWaiter blockHeight outcome =
          waitForBlockHeight blockCounter blockHeightWaiter blockHeight outcome2) ∧
      (∀ err,
        waitForBlockHeight blockCounter blockHeightWaiter blockHeight outcome = some err →
        blockCounter = Except.error err ∨
        ∃ counter, blockCounter = Except.ok counter ∧
          blockHeightWaiter counter blockHeight = Except.error err) := by
  intro blockCounter blockHeightWaiter blockHeight outcome
  rcases blockCounter with e | c
  · refine ⟨?_, ?_, ?_⟩
    · intro counter hc
      exact absurd hc (by simp)
    · intro outcome2
      rfl
    · intro err herr
      left
      have he : e = err := by simpa [waitForBlockHeight] using herr
      rw [he]
  · rcases hw : blockHeightWaiter c blockHeight with e2 | u
    · refine ⟨?_, ?_, ?_⟩
      · intro counter hc hok
        have hcc : c = counter := by
          injection hc
        rw [← hcc, hw] at hok
        simp [Except.isOk, Except.toBool] at hok
      · intro outcome2
        simp [waitForBlockHeight, hw]
      · intro err herr
        right
        refine ⟨c, rfl, ?_⟩
        have he2 : e2 = err := by simpa [waitForBlockHeight, hw] using herr
        rw [hw, he2]
    · refine ⟨?_, ?_, ?_⟩
      · intro counter hc hok
        simp [waitForBlockHeight, hw]
        cases outcome <;> rfl
      · intro outcome2
        simp [waitForBlockHeight, hw]
        cases outcome <;> cases outcome2 <;> rfl
      · intro err herr
        exfalso
        simp only [waitForBlockHeight] at herr
        rw [hw] at herr
        cases outcome <;> simp at herr

end Node

namespace BeaconChain

/-- C10: `Equals` on possibly-nil `DKGResult` pointers is true exactly when
both are nil or both are non-nil with equal `GroupPublicKey` bytes and equal
`Misbehaved` bytes; consequently it is reflexive, symmetric and transitive,
and a nil result never equals a non-nil one. -/
theorem DKGResult_Equals_equivalence :
    (∀ r r2, DKGResult.Equals r r2 = true ↔
      ((r = none ∧ r2 = none) ∨
        ∃ a b, r = some a ∧ r2 = some b ∧
          a.groupPublicKey = b.groupPublicKey ∧ a.misbehaved = b.misbehaved)) ∧
    (∀ r, DKGResult.Equals r r = true) ∧
    (∀ r r2, DKGResult.Equals r r2 = DKGResult.Equals r2 r) ∧
    (∀ r1 r2 r3, DKGResult.Equals r1 r2 = true → DKGResult.Equals r2 r3 = true →
      DKGResult.Equals r1 r3 = true) ∧
    (∀ a, DKGResult.Equals none (some a) = false ∧
      DKGResult.Equals (some a) none = false) := by
  have hiff : ∀ r r2, DKGResult.Equals r r2 = true ↔
      ((r = none ∧ r2 = none) ∨
        ∃ a b, r = some a ∧ r2 = some b ∧
          a.groupPublicKey = b.groupPublicKey ∧ a.misbehaved = b.misbehaved) := by
    rintro (_ | a) (_ | b)
    · simp [DKGResult.Equals]
    · simp [DKGResult.Equals]
    · simp [DKGResult.Equals]
    · simp only [DKGResult.Equals]
      split_ifs with h1 h2 <;> simp_all
  refine ⟨hiff, ?_, ?_, ?_, ?_⟩
  · intro r
    rw [hiff]
    rcases r with _ | a
    · exact Or.inl ⟨rfl, rfl⟩
    · exact Or.inr ⟨a, a, rfl, rfl, rfl, rfl⟩
  · rintro (_ | a) (_ | b)
    · rfl
    · rfl
    · rfl
    · simp only [DKGResult.Equals]
      split_ifs with h1 h2 h3 h4 <;> simp_all
  · intro r1 r2 r3 h12 h23
    rw [hiff] at h12 h23 ⊢
    rcases h12 with ⟨rfl, rfl⟩ | ⟨a, b, rfl, rfl, hg1, hm1⟩
    · exact h23
    · rcases h23 with ⟨h, -⟩ | ⟨b2, c, hb, rfl, hg2, hm2⟩
      · exact absurd h (by simp)
      · have hbb : b = b2 := by injection hb
        exact Or.inr ⟨a, c, rfl, rfl,
          by rw [hg1, hbb, hg2], by rw [hm1, hbb, hm2]⟩
  · intro a
    exact ⟨rfl, rfl⟩

end BeaconChain
